import Mathlib

/-!
Verification of the RAG support-copilot pipeline (`pipeline/rag.py`,
`pipeline/classifier.py`, `app.py`, `scripts/vector_store_script.py`)
against its natural-language specification.

The Python functions are shallowly embedded as Lean functions.  External
effects (the Chroma vector store, the Gemini model call, the filesystem)
appear as explicit parameters; a Python exception escaping a function is
modelled by `Except.error`, and a function that catches exceptions and
returns an error dictionary returns an ordinary value instead.  Where a
function's second result is a `Bool`, it records whether the generative
model was called.
-/

namespace AtlanCopilot

/-- A langchain `Document`: page content plus the optional `source` entry of
its metadata dictionary (`none` when the key is absent).  Both retrieved
chunks and knowledge-base documents have this shape. -/
structure Doc where
  page_content : String
  source : Option String
deriving DecidableEq, Repr

/-- `doc.metadata.get('source', 'N/A')` (rag.py line 160). -/
def sourceOrNA (d : Doc) : String := d.source.getD "N/A"

/-! ### Citation extraction (rag.py lines 157-175) -/

/-- First pass of source collection (rag.py lines 158-162): walk the
prioritized docs, append `metadata.get('source', 'N/A')` unless it is the
`'N/A'` sentinel or already collected. -/
def collectSources : List Doc → List String → List String
  | [], acc => acc
  | d :: ds, acc =>
    let url := sourceOrNA d
    if url ≠ "N/A" ∧ url ∉ acc then collectSources ds (acc ++ [url])
    else collectSources ds acc

/-- Second pass (rag.py lines 168-171): `if s and s not in unique_sources`,
i.e. drop falsy (empty) strings and duplicates. -/
def dedupNonEmpty : List String → List String → List String
  | [], acc => acc
  | s :: ss, acc =>
    if s ≠ "" ∧ s ∉ acc then dedupNonEmpty ss (acc ++ [s])
    else dedupNonEmpty ss acc

/-- The full citation-extraction step of `get_rag_answer`
(rag.py lines 157-175): both passes followed by `unique_sources[:5]`. -/
def extract_sources (docs : List Doc) : List String :=
  (dedupNonEmpty (collectSources docs []) []).take 5

/-- First-occurrence deduplication, keeping order (reference formulation). -/
def firstDedupAux : List String → List String → List String
  | [], _ => []
  | a :: l, seen =>
    if a ∈ seen then firstDedupAux l seen else a :: firstDedupAux l (a :: seen)

/-- First-occurrence deduplication of a list of strings. -/
def firstDedup (l : List String) : List String := firstDedupAux l []

/-- Modelled from the claim (C1) wording: walk the prioritized chunks in
order, collect each chunk's source metadata, skip the `'N/A'` sentinel,
keep only the first occurrence of each URL, truncate to 5 entries. -/
def claimSourcesC1 (docs : List Doc) : List String :=
  (firstDedup ((docs.map sourceOrNA).filter (fun s => s ≠ "N/A"))).take 5

/-- The amended citation algorithm: as `claimSourcesC1`, but the empty
string is skipped alongside the `'N/A'` sentinel. -/
def claimSourcesC1Amended (docs : List Doc) : List String :=
  (firstDedup ((docs.map sourceOrNA).filter (fun s => s ≠ "N/A" ∧ s ≠ ""))).take 5

/-! ### Substring search (python's `in` and `str.find`) -/

/-- Character index of the first occurrence of `needle` in `hay`
(python `hay.find(needle)`); `none` when `needle` does not occur. -/
def findSubIdx (needle : List Char) : List Char → Option Nat
  | [] => if needle.isPrefixOf ([] : List Char) then some 0 else none
  | c :: rest =>
    if needle.isPrefixOf (c :: rest) then some 0
    else (findSubIdx needle rest).map (· + 1)

/-- python `needle in hay` substring containment. -/
def containsSub (needle hay : String) : Bool := (findSubIdx needle.data hay.data).isSome

/-- python `str.lower()`: character-wise lowercasing (the strings compared
by this program are ASCII, where `Char.toLower` agrees with python). -/
def pyLower (s : String) : String := String.mk (s.data.map Char.toLower)

/-! ### Source prioritization (rag.py lines 142-149) -/

/-- `source_key` (rag.py lines 142-146): the sort key of a retrieved doc —
its lowercased source URL, preceded by the domain-trust tier: tier 0 when
the lowercased URL contains `docs.atlan.com` or `developer.atlan.com`,
tier 1 otherwise. -/
def source_key (d : Doc) : Nat × String :=
  let src := pyLower (d.source.getD "")
  if containsSub "docs.atlan.com" src || containsSub "developer.atlan.com" src then (0, src)
  else (1, src)

/-- Code-point lexicographic comparison of character lists
(python string `<=`). -/
def charListLe : List Char → List Char → Bool
  | [], _ => true
  | _ :: _, [] => false
  | a :: as, b :: bs =>
    if a.toNat < b.toNat then true
    else if b.toNat < a.toNat then false
    else charListLe as bs

/-- python string `<=` (code-point lexicographic). -/
def strLe (a b : String) : Bool := charListLe a.data b.data

/-- Lexicographic `≤` on `source_key` values (python tuple comparison):
tier first, then URL. -/
def keyLe (p q : Nat × String) : Bool :=
  if p.1 < q.1 then true else if q.1 < p.1 then false else strLe p.2 q.2

/-- The comparison relation `sorted(relevant_docs, key=source_key)` sorts
by (rag.py line 149). -/
def docLe (a b : Doc) : Prop := keyLe (source_key a) (source_key b) = true

instance : DecidableRel docLe := fun a b => decEq (keyLe (source_key a) (source_key b)) true

/-- `sorted(relevant_docs, key=source_key)` (rag.py line 149).  Python's
`sorted` is the stable sort by the key order; `List.insertionSort` with
`docLe` is that stable sort (stability is proved in
`prioritize_stable_filter`). -/
def prioritize (docs : List Doc) : List Doc := List.insertionSort docLe docs

/-! ### The RAG query path (rag.py lines 29-179) -/

/-- `RAG_PROMPT_TEMPLATE` (prompts.py) up to the `{context}` placeholder. -/
def ragPromptPart1 : String :=
  "\nYou are a helpful and friendly AI assistant for \x27Atlan\x27. Answer the user\x27s question based ONLY on the Context.\n\nImportant constraints:\n1. Use only the provided Context; do not rely on prior knowledge. If the Context is insufficient, say you don\x27t have enough information.\n2. Prefer authoritative Atlan sources (docs.atlan.com, developer.atlan.com) when present in the Context.\n3. Write the answer in a clean, concise format:\n   - Start with a single-sentence summary.\n   - Then provide 3-6 bullet points with specific guidance or steps.\n4. Do NOT include a Sources section inside the answer text. Sources will be rendered separately by the UI.\n\n---\nContext:\n"

/-- `RAG_PROMPT_TEMPLATE` between `{context}` and `{question}`. -/
def ragPromptPart2 : String := "\n\n---\nQuestion:\n"

/-- `RAG_PROMPT_TEMPLATE` after the `{question}` placeholder. -/
def ragPromptPart3 : String := "\n\n---\nFinal Answer (summary + bullet points, no sources inline):\n"

/-- `RAG_PROMPT_TEMPLATE.format(context=..., question=...)` (rag.py line 151). -/
def ragPromptFormat (context question : String) : String :=
  ragPromptPart1 ++ context ++ ragPromptPart2 ++ question ++ ragPromptPart3

/-- The fixed insufficient-information answer (rag.py line 136). -/
def INSUFFICIENT_ANSWER : String :=
  "I do not have enough information to answer this question based on the available knowledge base. Please try rephrasing your question or contact our support team for assistance."

/-- The dictionary returned by `get_rag_answer`: either an answer record
(`context_used` is absent in the no-evidence case, hence the `Option`) or
an error record. -/
inductive RagResult where
  | answer (text : String) (sources : List String) (context_used : Option Nat)
  | error (msg : String)
deriving DecidableEq, Repr

/-- The loaded Chroma store, reduced to the one capability `get_rag_answer`
uses: `retriever.invoke(question)` (rag.py lines 131-132), which returns
the retrieved chunks or raises. -/
structure VectorStore where
  as_retriever_invoke : String → Except String (List Doc)

/-- `_load_vector_store` (rag.py lines 108-120): the Chroma constructor
either returns a store or raises; the raise is caught and becomes `None`. -/
def load_vector_store (chromaLoad : Except String VectorStore) : Option VectorStore :=
  match chromaLoad with
  | .ok vs => some vs
  | .error _ => none

/-- `get_rag_answer` (rag.py lines 122-179).  `llm_generate` is
`self.llm.generate_content(prompt).text` — an `Option String` (possibly
`None`) or a raised exception.  The outer `Except` is an exception escaping
`get_rag_answer` itself: only the generation step (lines 154-179) is inside
a `try`, retrieval is not.  The `Bool` records whether the model was
called. -/
def get_rag_answer (vector_store : Option VectorStore)
    (llm_generate : String → Except String (Option String))
    (question : String) : Except String (RagResult × Bool) :=
  match vector_store with
  | none => .ok (.error "Vector store is not available.", false)
  | some vs =>
    match vs.as_retriever_invoke question with
    | .error e => .error e
    | .ok relevant_docs =>
      if relevant_docs.isEmpty then
        .ok (.answer INSUFFICIENT_ANSWER [] none, false)
      else
        let sorted_docs := prioritize relevant_docs
        let context_str := String.intercalate "\n\n" (sorted_docs.map Doc.page_content)
        let prompt := ragPromptFormat context_str question
        match llm_generate prompt with
        | .error e => .ok (.error ("Failed to generate an answer from the LLM: " ++ e), true)
        | .ok t =>
          .ok (.answer (t.getD "") (extract_sources sorted_docs) (some relevant_docs.length), true)

/-- `RAGPipeline.query` (rag.py lines 38-59): the UI-facing wrapper; its
`try/except` catches any exception escaping `get_rag_answer`. -/
def RAGPipeline_query (vector_store : Option VectorStore)
    (llm_generate : String → Except String (Option String))
    (question : String) (context : String) : String :=
  let enhanced_question :=
    if context ≠ "" then question ++ "\n\nAdditional context: " ++ context else question
  match get_rag_answer vector_store llm_generate enhanced_question with
  | .error e => "I\x27m sorry, I encountered an error while processing your question: " ++ e
  | .ok (result, _) =>
    match result with
    | .error msg => "I encountered an issue while processing your request: " ++ msg
    | .answer text _ _ => text

/-! ### Index build (rag.py lines 62-106, vector_store_script.py) -/

/-- A record of the knowledge-base JSON file; both fields are optional
dictionary keys. -/
structure KBItem where
  content : Option String
  url : Option String
deriving DecidableEq, Repr

/-- The documents stage of the index build (rag.py lines 85-89): keep items
with truthy (present, non-empty) content and build a `Document` with
`page_content=item.get('content','')` and source `item.get('url','')`. -/
def kbDocuments (kb_data : List KBItem) : List Doc :=
  (kb_data.filter (fun it => it.content.getD "" != "")).map
    (fun it => { page_content := it.content.getD "", source := some (it.url.getD "") })

/-- `create_documents_from_data` (vector_store_script.py lines 34-40): the
same truthy-content filter, but `item['content']` / `item['url']` raise
`KeyError` on a missing key; content presence is guaranteed by the filter,
a missing url raises. -/
def create_documents_from_data (data : List KBItem) : Except String (List Doc) :=
  let kept := data.filter (fun it => it.content.getD "" != "")
  if kept.all (fun it => it.url.isSome) then
    .ok (kept.map (fun it => { page_content := it.content.getD "", source := some (it.url.getD "") }))
  else .error "KeyError: url"

/-- The filesystem state seen by `_ensure_local_vector_store`:
whether the index directory exists and is non-empty (rag.py line 68), and
the knowledge-base file — `none` when absent (line 72), `some none` when
unreadable or invalid JSON (lines 75-79), `some (some data)` otherwise. -/
structure BuildFS where
  indexNonEmpty : Bool
  kbFile : Option (Option (List KBItem))
deriving DecidableEq, Repr

/-- How one invocation of the index build ended. -/
inductive BuildOutcome where
  | skippedExistingIndex
  | skippedNoKnowledgeBase
  | skippedEmptyKnowledgeBase
  | skippedNoDocuments
  | skippedNoChunks
  | built
deriving DecidableEq, Repr

/-- `_ensure_local_vector_store` (rag.py lines 62-106).  `split_documents`
is the `RecursiveCharacterTextSplitter.split_documents` call (line 95),
kept abstract.  The only write (lines 100-106, `os.makedirs` +
`Chroma.from_documents`) is modelled by setting `indexNonEmpty`. -/
def ensure_local_vector_store (split_documents : List Doc → List Doc)
    (fs : BuildFS) : BuildFS × BuildOutcome :=
  if fs.indexNonEmpty then (fs, .skippedExistingIndex)
  else
    match fs.kbFile with
    | none => (fs, .skippedNoKnowledgeBase)
    | some parsed =>
      let kb_data := parsed.getD []
      if kb_data.isEmpty then (fs, .skippedEmptyKnowledgeBase)
      else
        let documents := kbDocuments kb_data
        if documents.isEmpty then (fs, .skippedNoDocuments)
        else
          let chunks := split_documents documents
          if chunks.isEmpty then (fs, .skippedNoChunks)
          else ({ fs with indexNonEmpty := true }, .built)

/-! ### Ticket classification (classifier.py lines 29-75) -/

/-- `_clean_llm_response` (classifier.py lines 29-36). -/
def clean_llm_response (response_text : String) : String :=
  (((response_text.trim).replace "```json" "").replace "```" "").trim

/-- The keys `classify_ticket` requires (classifier.py line 58). -/
def REQUIRED_KEYS : List String := ["topic_tags", "sentiment", "priority"]

/-- The dictionary returned by `classify_ticket`: the parsed classification
(a JSON object, modelled as key/value pairs) or an error record whose
`raw_response` field is present only for the JSON-decode failure. -/
inductive ClassifyResult where
  | classification (fields : List (String × String))
  | error (msg : String) (raw_response : Option String)
deriving DecidableEq, Repr

/-- `classify_ticket` (classifier.py lines 38-75).  `fmt` is
`CLASSIFICATION_PROMPT.format`, `llm_generate` the Gemini call returning
`response.text` or raising, `parse_json` is `json.loads` returning the
object's key/value pairs or `none` on `JSONDecodeError`.  The `Bool`
records whether the model was called. -/
def classify_ticket (fmt : String → String)
    (llm_generate : String → Except String String)
    (parse_json : String → Option (List (String × String)))
    (ticket_text : String) : ClassifyResult × Bool :=
  if ticket_text = "" then (.error "Input ticket text cannot be empty." none, false)
  else
    match llm_generate (fmt ticket_text) with
    | .error e => (.error ("An unexpected error occurred: " ++ e) none, true)
    | .ok response_text =>
      let cleaned := clean_llm_response response_text
      match parse_json cleaned with
      | none => (.error "Failed to decode JSON from LLM response." (some response_text), true)
      | some classification =>
        if REQUIRED_KEYS.all (fun k => (classification.map Prod.fst).contains k) then
          (.classification classification, true)
        else
          (.error ("An unexpected error occurred: LLM response is missing one or more required keys. Got: "
            ++ String.intercalate ", " (classification.map Prod.fst)) none, true)

/-! ### Answer post-processing (app.py lines 114-126) -/

/-- The marker list of `strip_sources_from_answer` (app.py line 119), in
its fixed priority order. -/
def sourceMarkers : List String :=
  ["\nSources:", "\nSource:", "\n**Sources:**", "\n**Source:**", "\n📚 Sources:"]

/-- The characters of a string, lowercased (python `str.lower()` on the
ASCII range). -/
def lowerChars (s : String) : List Char := s.data.map Char.toLower

/-- The whitespace set of python's `str.rstrip()`. -/
def pyWhitespace (c : Char) : Bool :=
  c = ' ' || c = '\t' || c = '\n' || c = '\x0b' || c = '\x0c' || c = '\r'

/-- python `str.rstrip()` on a character list. -/
def rstripChars (cs : List Char) : List Char := (cs.reverse.dropWhile pyWhitespace).reverse

/-- `strip_sources_from_answer` (app.py lines 114-126): try each marker in
order, case-insensitively; cut at the first occurrence of the first marker
that occurs at all, then strip trailing whitespace. -/
def strip_sources_from_answer (answer_text : String) : String :=
  if answer_text = "" then ""
  else
    match sourceMarkers.findSome? (fun m => findSubIdx (lowerChars m) (lowerChars answer_text)) with
    | some cut => String.mk (rstripChars (answer_text.data.take cut))
    | none => answer_text

/-- Modelled from the claim (C8) wording: cut at the smallest index at
which any of the markers occurs (the first occurrence of any marker). -/
def claimStripC8 (answer_text : String) : String :=
  if answer_text = "" then ""
  else
    match (sourceMarkers.filterMap (fun m => findSubIdx (lowerChars m) (lowerChars answer_text))).min? with
    | some cut => String.mk (rstripChars (answer_text.data.take cut))
    | none => answer_text

/-- The amended post-processing contract: cut at the first occurrence of
the first marker, in the fixed priority order of `sourceMarkers`, that
occurs anywhere in the answer. -/
def claimStripC8Amended (answer_text : String) : String :=
  if answer_text = "" then ""
  else
    match sourceMarkers.find? (fun m => (findSubIdx (lowerChars m) (lowerChars answer_text)).isSome) with
    | none => answer_text
    | some m =>
      match findSubIdx (lowerChars m) (lowerChars answer_text) with
      | some cut => String.mk (rstripChars (answer_text.data.take cut))
      | none => answer_text

/-! ### Lemmas about first-occurrence deduplication -/

theorem firstDedupAux_congr (l : List String) :
    ∀ s₁ s₂, (∀ x, x ∈ s₁ ↔ x ∈ s₂) → firstDedupAux l s₁ = firstDedupAux l s₂ := by
  induction l with
  | nil => intro s₁ s₂ _; rfl
  | cons a l ih =>
    intro s₁ s₂ h
    by_cases ha : a ∈ s₁
    · have ha₂ : a ∈ s₂ := (h a).mp ha
      simp only [firstDedupAux, if_pos ha, if_pos ha₂]
      exact ih s₁ s₂ h
    · have ha₂ : a ∉ s₂ := fun hm => ha ((h a).mpr hm)
      simp only [firstDedupAux, if_neg ha, if_neg ha₂]
      refine congrArg (a :: ·) (ih _ _ ?_)
      intro x
      simp only [List.mem_cons, h x]

theorem firstDedupAux_not_mem (l : List String) :
    ∀ (a : String) (seen : List String), a ∉ l →
      firstDedupAux l (a :: seen) = firstDedupAux l seen := by
  induction l with
  | nil => intro a seen _; rfl
  | cons b l ih =>
    intro a seen hal
    have hba : b ≠ a := by
      intro h; exact hal (by simp [h])
    have hmem : b ∈ a :: seen ↔ b ∈ seen := by
      simp [List.mem_cons, hba]
    by_cases hb : b ∈ seen
    · simp only [firstDedupAux, if_pos (hmem.mpr hb), if_pos hb]
      exact ih a seen (fun h => hal (List.mem_cons_of_mem _ h))
    · simp only [firstDedupAux, if_neg (fun h => hb (hmem.mp h)), if_neg hb]
      refine congrArg (b :: ·) ?_
      have h1 : firstDedupAux l (b :: a :: seen) = firstDedupAux l (a :: b :: seen) := by
        refine firstDedupAux_congr l _ _ ?_
        intro x; constructor <;> (intro h; simp only [List.mem_cons] at h ⊢; tauto)
      rw [h1, ih a (b :: seen) (fun h => hal (List.mem_cons_of_mem _ h))]

/-- `collectSources` is the generic first-occurrence dedup of the
`'N/A'`-filtered source list, relative to the accumulator. -/
theorem collectSources_eq (docs : List Doc) :
    ∀ acc, collectSources docs acc =
      acc ++ firstDedupAux ((docs.map sourceOrNA).filter (fun s => s ≠ "N/A")) acc := by
  induction docs with
  | nil => intro acc; simp [collectSources, firstDedupAux]
  | cons d ds ih =>
    intro acc
    by_cases hna : sourceOrNA d = "N/A"
    · have : ¬ (sourceOrNA d ≠ "N/A" ∧ sourceOrNA d ∉ acc) := by tauto
      simp only [collectSources, if_neg this]
      rw [ih acc]
      simp [hna]
    · by_cases hm : sourceOrNA d ∈ acc
      · have : ¬ (sourceOrNA d ≠ "N/A" ∧ sourceOrNA d ∉ acc) := by tauto
        simp only [collectSources, if_neg this]
        rw [ih acc]
        simp only [List.map_cons, List.filter_cons, decide_eq_true_eq]
        rw [if_pos hna]
        simp [firstDedupAux, hm]
      · have hcond : sourceOrNA d ≠ "N/A" ∧ sourceOrNA d ∉ acc := ⟨hna, hm⟩
        simp only [collectSources, if_pos hcond]
        rw [ih (acc ++ [sourceOrNA d])]
        simp only [List.map_cons, List.filter_cons, decide_eq_true_eq]
        rw [if_pos hna]
        simp only [firstDedupAux, if_neg hm]
        rw [List.append_assoc, List.singleton_append]
        refine congrArg (acc ++ ·) (congrArg (sourceOrNA d :: ·) ?_)
        refine firstDedupAux_congr _ _ _ ?_
        intro x; simp [List.mem_append, List.mem_cons, or_comm]

/-- `dedupNonEmpty` is the generic first-occurrence dedup of the
empty-filtered list, relative to the accumulator. -/
theorem dedupNonEmpty_eq (l : List String) :
    ∀ acc, dedupNonEmpty l acc =
      acc ++ firstDedupAux (l.filter (fun s => s ≠ "")) acc := by
  induction l with
  | nil => intro acc; simp [dedupNonEmpty, firstDedupAux]
  | cons s ss ih =>
    intro acc
    by_cases hne : s = ""
    · have : ¬ (s ≠ "" ∧ s ∉ acc) := by tauto
      simp only [dedupNonEmpty, if_neg this]
      rw [ih acc]
      simp [hne]
    · by_cases hm : s ∈ acc
      · have : ¬ (s ≠ "" ∧ s ∉ acc) := by tauto
        simp only [dedupNonEmpty, if_neg this]
        rw [ih acc]
        simp only [List.filter_cons, decide_eq_true_eq]
        rw [if_pos hne]
        simp [firstDedupAux, hm]
      · have hcond : s ≠ "" ∧ s ∉ acc := ⟨hne, hm⟩
        simp only [dedupNonEmpty, if_pos hcond]
        rw [ih (acc ++ [s])]
        simp only [List.filter_cons, decide_eq_true_eq]
        rw [if_pos hne]
        simp only [firstDedupAux, if_neg hm]
        rw [List.append_assoc, List.singleton_append]
        refine congrArg (acc ++ ·) (congrArg (s :: ·) ?_)
        refine firstDedupAux_congr _ _ _ ?_
        intro x; simp [List.mem_append, List.mem_cons, or_comm]

/-- Filtering commutes with first-occurrence dedup. -/
theorem filter_firstDedupAux (p : String → Bool) (l : List String) :
    ∀ seen, (firstDedupAux l seen).filter p = firstDedupAux (l.filter p) seen := by
  induction l with
  | nil => intro seen; rfl
  | cons a l ih =>
    intro seen
    by_cases hs : a ∈ seen
    · by_cases hp : p a = true
      · simp only [firstDedupAux, if_pos hs, List.filter_cons, hp, if_true]
        exact ih seen
      · simp only [firstDedupAux, if_pos hs, List.filter_cons, hp, if_false]
        exact ih seen
    · by_cases hp : p a = true
      · simp only [firstDedupAux, if_neg hs, List.filter_cons, hp, if_true]
        refine congrArg (a :: ·) (ih (a :: seen))
      · simp only [firstDedupAux, if_neg hs, List.filter_cons, hp, if_false]
        rw [ih (a :: seen)]
        refine firstDedupAux_not_mem _ _ _ ?_
        intro hmem
        have := List.of_mem_filter hmem
        simp [hp] at this

theorem firstDedupAux_nodup (l : List String) :
    ∀ seen, (firstDedupAux l seen).Nodup ∧ ∀ x ∈ firstDedupAux l seen, x ∉ seen := by
  induction l with
  | nil => intro seen; simp [firstDedupAux]
  | cons a l ih =>
    intro seen
    by_cases hs : a ∈ seen
    · simp only [firstDedupAux, if_pos hs]
      exact ih seen
    · simp only [firstDedupAux, if_neg hs]
      obtain ⟨hnd, hmem⟩ := ih (a :: seen)
      refine ⟨List.nodup_cons.mpr ⟨?_, hnd⟩, ?_⟩
      · intro hmem2
        exact hmem a hmem2 (List.mem_cons_self a seen)
      · intro x hx
        rcases List.mem_cons.mp hx with rfl | hx'
        · exact hs
        · intro hxs
          exact hmem x hx' (List.mem_cons_of_mem _ hxs)

theorem firstDedupAux_of_nodup (l : List String) :
    ∀ seen, l.Nodup → (∀ x ∈ l, x ∉ seen) → firstDedupAux l seen = l := by
  induction l with
  | nil => intro seen _ _; rfl
  | cons a l ih =>
    intro seen hnd hdisj
    have ha : a ∉ seen := hdisj a (List.mem_cons_self a l)
    simp only [firstDedupAux, if_neg ha]
    refine congrArg (a :: ·) (ih (a :: seen) (List.nodup_cons.mp hnd).2 ?_)
    intro x hx
    intro hmem
    rcases List.mem_cons.mp hmem with rfl | hxs
    · exact (List.nodup_cons.mp hnd).1 hx
    · exact hdisj x (List.mem_cons_of_mem _ hx) hxs

theorem firstDedup_idem (m : List String) :
    firstDedupAux (firstDedupAux m []) [] = firstDedupAux m [] :=
  firstDedupAux_of_nodup _ _ (firstDedupAux_nodup m []).1 (by simp)

/-- `extract_sources` computes exactly the amended citation algorithm. -/
theorem extract_sources_eq (docs : List Doc) :
    extract_sources docs = claimSourcesC1Amended docs := by
  unfold extract_sources claimSourcesC1Amended firstDedup
  rw [collectSources_eq, List.nil_append, dedupNonEmpty_eq, List.nil_append,
    filter_firstDedupAux, firstDedup_idem]
  refine congrArg (List.take 5) (congrArg (firstDedupAux · []) ?_)
  rw [List.filter_filter]
  refine List.filter_congr ?_
  intro x _
  simp [decide_eq_true_eq, Bool.and_comm]

/-! ### Lemmas about the prioritizer's comparison -/

theorem charListLe_refl (as : List Char) : charListLe as as = true := by
  induction as with
  | nil => rfl
  | cons a as ih => simp [charListLe, ih]

theorem charListLe_total (as : List Char) :
    ∀ bs, charListLe as bs = true ∨ charListLe bs as = true := by
  induction as with
  | nil => intro bs; left; rfl
  | cons a as ih =>
    intro bs
    cases bs with
    | nil => right; rfl
    | cons b bs =>
      rcases Nat.lt_trichotomy a.toNat b.toNat with h | h | h
      · left; simp [charListLe, h]
      · rcases ih bs with h' | h'
        · left; simp [charListLe, h, Nat.lt_irrefl, h']
        · right; simp [charListLe, h.symm, Nat.lt_irrefl, h']
      · right; simp [charListLe, h]

theorem charListLe_trans (as : List Char) :
    ∀ bs cs, charListLe as bs = true → charListLe bs cs = true →
      charListLe as cs = true := by
  induction as with
  | nil => intro bs cs _ _; rfl
  | cons a as ih =>
    intro bs cs h1 h2
    cases bs with
    | nil => simp [charListLe] at h1
    | cons b bs =>
      cases cs with
      | nil => simp [charListLe] at h2
      | cons c cs =>
        simp only [charListLe] at h1 h2 ⊢
        rcases Nat.lt_trichotomy a.toNat b.toNat with hab | hab | hab
        · rcases Nat.lt_trichotomy b.toNat c.toNat with hbc | hbc | hbc
          · simp [Nat.lt_trans hab hbc]
          · simp [hbc ▸ hab]
          · simp [hbc, Nat.lt_asymm hbc] at h2
        · rcases Nat.lt_trichotomy b.toNat c.toNat with hbc | hbc | hbc
          · simp [hab ▸ hbc]
          · have hac : a.toNat = c.toNat := hab.trans hbc
            simp only [hab, Nat.lt_irrefl, if_false] at h1
            simp only [hbc, Nat.lt_irrefl, if_false] at h2
            simp [hac, Nat.lt_irrefl, ih bs cs h1 h2]
          · simp [hbc, Nat.lt_asymm hbc] at h2
        · simp [hab, Nat.lt_asymm hab] at h1

theorem keyLe_refl (p : Nat × String) : keyLe p p = true := by
  simp [keyLe, charListLe_refl, strLe]

theorem keyLe_total (p q : Nat × String) : keyLe p q = true ∨ keyLe q p = true := by
  unfold keyLe
  rcases Nat.lt_trichotomy p.1 q.1 with h | h | h
  · left; simp [h]
  · rcases charListLe_total p.2.data q.2.data with h' | h'
    · left; simp [h, Nat.lt_irrefl, strLe, h']
    · right; simp [h, Nat.lt_irrefl, strLe, h']
  · right; simp [h]

theorem keyLe_trans (p q r : Nat × String) :
    keyLe p q = true → keyLe q r = true → keyLe p r = true := by
  unfold keyLe
  intro h1 h2
  rcases Nat.lt_trichotomy p.1 q.1 with hpq | hpq | hpq
  · rcases Nat.lt_trichotomy q.1 r.1 with hqr | hqr | hqr
    · simp [Nat.lt_trans hpq hqr]
    · simp [hqr ▸ hpq]
    · simp [hqr, Nat.lt_asymm hqr] at h2
  · rcases Nat.lt_trichotomy q.1 r.1 with hqr | hqr | hqr
    · simp [hpq ▸ hqr]
    · have hpr : p.1 = r.1 := hpq.trans hqr
      simp only [hpq, Nat.lt_irrefl, if_false] at h1
      simp only [hqr, Nat.lt_irrefl, if_false] at h2
      simp only [hpr, Nat.lt_irrefl, if_false]
      exact charListLe_trans _ _ _ h1 h2
    · simp [hqr, Nat.lt_asymm hqr] at h2
  · simp [hpq, Nat.lt_asymm hpq] at h1

instance : IsTotal Doc docLe :=
  ⟨fun a b => keyLe_total (source_key a) (source_key b)⟩

instance : IsTrans Doc docLe :=
  ⟨fun a b c => keyLe_trans (source_key a) (source_key b) (source_key c)⟩

theorem not_docLe_key_ne {a b : Doc} (h : ¬ docLe a b) :
    source_key b ≠ source_key a := by
  intro he
  exact h (by simpa [docLe, he] using keyLe_refl (source_key b))

theorem orderedInsert_filter_pos (a : Doc) (k : Nat × String) (h : source_key a = k) :
    ∀ l : List Doc, (List.orderedInsert docLe a l).filter (fun d => source_key d = k) =
      a :: l.filter (fun d => source_key d = k) := by
  intro l
  induction l with
  | nil => simp [List.orderedInsert, List.filter_cons, h]
  | cons b l ih =>
    by_cases hab : docLe a b
    · rw [List.orderedInsert_of_le _ _ hab]
      simp [List.filter_cons, h]
    · have hbk : ¬ (source_key b = k) := h ▸ not_docLe_key_ne hab
      simp only [List.orderedInsert, if_neg hab, List.filter_cons]
      rw [if_neg (by simpa using hbk), if_neg (by simpa using hbk)]
      exact ih

theorem orderedInsert_filter_neg (a : Doc) (k : Nat × String) (h : ¬ (source_key a = k)) :
    ∀ l : List Doc, (List.orderedInsert docLe a l).filter (fun d => source_key d = k) =
      l.filter (fun d => source_key d = k) := by
  intro l
  induction l with
  | nil => simp [List.orderedInsert, List.filter_cons, h]
  | cons b l ih =>
    by_cases hab : docLe a b
    · rw [List.orderedInsert_of_le _ _ hab]
      simp [List.filter_cons, h]
    · simp only [List.orderedInsert, if_neg hab, List.filter_cons]
      rw [ih]

/-- Stability of the prioritizer: the subsequence of chunks sharing any
given sort key is exactly the corresponding subsequence of the input. -/
theorem prioritize_stable_filter (docs : List Doc) (k : Nat × String) :
    (prioritize docs).filter (fun d => source_key d = k) =
      docs.filter (fun d => source_key d = k) := by
  unfold prioritize
  induction docs with
  | nil => rfl
  | cons a l ih =>
    show (List.orderedInsert docLe a (List.insertionSort docLe l)).filter _ = _
    by_cases ha : source_key a = k
    · rw [orderedInsert_filter_pos a k ha, ih]
      simp [List.filter_cons, ha]
    · rw [orderedInsert_filter_neg a k ha, ih]
      simp [List.filter_cons, ha]

/-- Unfolding `docLe` into the tier/URL disjunction. -/
theorem docLe_iff (a b : Doc) :
    docLe a b ↔ ((source_key a).1 < (source_key b).1 ∨
      ((source_key a).1 = (source_key b).1 ∧
        strLe (source_key a).2 (source_key b).2 = true)) := by
  unfold docLe keyLe
  rcases Nat.lt_trichotomy (source_key a).1 (source_key b).1 with h | h | h
  · simp [h]
  · simp [h, Nat.lt_irrefl]
  · simp only [Nat.lt_asymm h, if_false, h, if_true]
    constructor
    · intro hc; exact absurd hc (by simp)
    · rintro (hc | ⟨he, _⟩)
      · exact hc.elim
      · exact absurd he (Nat.ne_of_gt h)

/-! ### Claim theorems -/

/-- C1, counterexample to the claim as stated: a retrieved chunk whose
source metadata is the empty string is dropped by the code's second pass,
but the claim's algorithm (skip only the `'N/A'` sentinel, dedup, cap at 5)
keeps it. -/
theorem claim_C1_counterexample :
    extract_sources [{ page_content := "text", source := some "" }] = [] ∧
      claimSourcesC1 [{ page_content := "text", source := some "" }] = [""] := by
  exact ⟨by decide, by decide⟩

/-- C1 (amended): the sources returned by `get_rag_answer` are built by
walking the prioritized chunks in order, collecting each chunk's source
metadata, skipping the `'N/A'` sentinel and empty source strings, keeping
only the first occurrence of each URL (priority order preserved), and
truncating to at most 5 entries; hence the list never has more than 5
elements and never contains a duplicate URL. -/
theorem claim_C1 (docs : List Doc) :
    extract_sources docs = claimSourcesC1Amended docs ∧
      (extract_sources docs).length ≤ 5 ∧ (extract_sources docs).Nodup := by
  refine ⟨extract_sources_eq docs, ?_, ?_⟩
  · exact List.length_take_le 5 _
  · rw [extract_sources_eq docs]
    unfold claimSourcesC1Amended firstDedup
    exact List.Nodup.sublist (List.take_sublist _ _) (firstDedupAux_nodup _ []).1

/-- C2, counterexample to the claim as stated: two tier-1 chunks with
source URLs `"B"` and `"a"`; the code orders the `"a"` chunk first (it
compares lowercased URLs), while lexicographic order on the raw source
URLs puts `"B"` first (`B` < `a` by code point), so the output is not in
raw-URL lexicographic order within the tier. -/
theorem claim_C2_counterexample :
    prioritize [{ page_content := "x", source := some "B" },
        { page_content := "y", source := some "a" }] =
      [{ page_content := "y", source := some "a" },
        { page_content := "x", source := some "B" }] ∧
      (source_key { page_content := "x", source := some "B" }).1 =
        (source_key { page_content := "y", source := some "a" }).1 ∧
      strLe (({ page_content := "y", source := some "a" } : Doc).source.getD "")
        (({ page_content := "x", source := some "B" } : Doc).source.getD "") = false := by
  exact ⟨by decide, by decide, by decide⟩

/-- C2 (amended): prioritization is a deterministic stable reordering:
the output is a permutation of the input, every chunk whose lowercased
source URL contains an authoritative-domain substring (tier 0) precedes
every chunk whose lowercased URL does not (tier 1), within a tier chunks
are ordered by lexicographic order of the lowercased source URLs, and
chunks with equal sort keys keep their input order (stability). -/
theorem claim_C2 (docs : List Doc) :
    (prioritize docs).Perm docs ∧
      (prioritize docs).Pairwise (fun a b =>
        (source_key a).1 < (source_key b).1 ∨
          ((source_key a).1 = (source_key b).1 ∧
            strLe (source_key a).2 (source_key b).2 = true)) ∧
      (∀ k : Nat × String,
        (prioritize docs).filter (fun d => source_key d = k) =
          docs.filter (fun d => source_key d = k)) := by
  refine ⟨List.perm_insertionSort docLe docs, ?_, fun k => prioritize_stable_filter docs k⟩
  exact List.Pairwise.imp (fun h => (docLe_iff _ _).mp h) (List.sorted_insertionSort docLe docs)

/-- C3: when the store is available and retrieval returns zero chunks,
`get_rag_answer` returns a normal result with the fixed
insufficient-information answer and no sources, raises nothing, and never
calls the generative model. -/
theorem claim_C3 (vs : VectorStore) (llm_generate : String → Except String (Option String))
    (question : String) (hret : vs.as_retriever_invoke question = .ok []) :
    get_rag_answer (some vs) llm_generate question =
      .ok (.answer INSUFFICIENT_ANSWER [] none, false) := by
  simp only [get_rag_answer, hret, List.isEmpty_nil, if_true]

theorem claim_C3_witness :
    get_rag_answer (some ⟨fun _ => .ok []⟩) (fun _ => .ok (some "ans")) "How do I enable SSO?" =
      .ok (.answer INSUFFICIENT_ANSWER [] none, false) :=
  claim_C3 ⟨fun _ => .ok []⟩ (fun _ => .ok (some "ans")) "How do I enable SSO?" rfl

/-- C5: when the Chroma load raised (the persisted index failed to load or
was never built), the store is `None` and every query returns exactly the
`"Vector store is not available."` error result, with no model call. -/
theorem claim_C5 (e : String) (llm_generate : String → Except String (Option String))
    (question : String) :
    load_vector_store (.error e) = none ∧
      get_rag_answer (load_vector_store (.error e)) llm_generate question =
        .ok (.error "Vector store is not available.", false) :=
  ⟨rfl, rfl⟩

/-- C10: on the empty ticket text, `classify_ticket` returns the
`"Input ticket text cannot be empty."` error record immediately, without
calling the generative model. -/
theorem claim_C10 (fmt : String → String)
    (llm_generate : String → Except String String)
    (parse_json : String → Option (List (String × String))) :
    classify_ticket fmt llm_generate parse_json "" =
      (.error "Input ticket text cannot be empty." none, false) := rfl

/-- C4, counterexample to the claim as stated: the retrieval call
(rag.py lines 131-132) is outside the `try` block, so an exception raised
during retrieval escapes `get_rag_answer` instead of being converted into
an error-field result. -/
theorem claim_C4_counterexample :
    get_rag_answer (some ⟨fun _ => .error "connection reset"⟩)
      (fun _ => .ok (some "ans")) "q" = .error "connection reset" := rfl

/-- C4 (amended): when retrieval succeeds, `get_rag_answer` raises
nothing; if the generative model call raises, the result is the error
value `"Failed to generate an answer from the LLM: <detail>"`; a failure
during retrieval, however, propagates out of `get_rag_answer` and is only
caught by the `query` wrapper, which returns an apology string instead of
an error-field result. -/
theorem claim_C4 :
    (∀ (vs : VectorStore) (llm_generate : String → Except String (Option String))
        (question : String) (docs : List Doc),
        vs.as_retriever_invoke question = .ok docs →
        ∃ r, get_rag_answer (some vs) llm_generate question = .ok r) ∧
      (∀ (vs : VectorStore) (question e : String) (docs : List Doc),
        vs.as_retriever_invoke question = .ok docs → docs ≠ [] →
        get_rag_answer (some vs) (fun _ => .error e) question =
          .ok (.error ("Failed to generate an answer from the LLM: " ++ e), true)) ∧
      (∀ (vs : VectorStore) (llm_generate : String → Except String (Option String))
        (question e : String),
        vs.as_retriever_invoke question = .error e →
        RAGPipeline_query (some vs) llm_generate question "" =
          "I\x27m sorry, I encountered an error while processing your question: " ++ e) := by
  refine ⟨?_, ?_, ?_⟩
  · intro vs llm_generate question docs hret
    simp only [get_rag_answer, hret]
    by_cases hd : docs.isEmpty
    · simp [hd]
    · simp only [Bool.not_eq_true] at hd
      simp only [hd, Bool.false_eq_true, if_false]
      generalize llm_generate (ragPromptFormat
        (String.intercalate "\n\n" (List.map Doc.page_content (prioritize docs))) question) = res
      cases res with
      | error e => exact ⟨_, rfl⟩
      | ok t => exact ⟨_, rfl⟩
  · intro vs question e docs hret hd
    cases docs with
    | nil => exact absurd rfl hd
    | cons a as => simp [get_rag_answer, hret]
  · intro vs llm_generate question e hret
    simp [RAGPipeline_query, get_rag_answer, hret]

theorem claim_C4_witness :
    (∃ r, get_rag_answer (some ⟨fun _ => .ok [{ page_content := "c", source := some "u" }]⟩)
        (fun _ => .ok (some "a")) "q" = .ok r) ∧
      get_rag_answer (some ⟨fun _ => .ok [{ page_content := "c", source := some "u" }]⟩)
        (fun _ => .error "boom") "q" =
        .ok (.error ("Failed to generate an answer from the LLM: " ++ "boom"), true) ∧
      RAGPipeline_query (some ⟨fun _ => .error "down"⟩) (fun _ => .ok (some "a")) "q" "" =
        "I\x27m sorry, I encountered an error while processing your question: " ++ "down" :=
  ⟨claim_C4.1 _ _ _ _ rfl, claim_C4.2.1 _ _ _ _ rfl (by simp), claim_C4.2.2 _ _ _ _ rfl⟩

/-- Every invocation of the index build either leaves the state unchanged
with a skip outcome, or builds, setting the non-empty-index flag. -/
theorem ensure_cases (split_documents : List Doc → List Doc) (fs : BuildFS) :
    ((ensure_local_vector_store split_documents fs).1 = fs ∧
      (ensure_local_vector_store split_documents fs).2 ≠ .built) ∨
    ((ensure_local_vector_store split_documents fs).1 = { fs with indexNonEmpty := true } ∧
      (ensure_local_vector_store split_documents fs).2 = .built) := by
  by_cases hidx : fs.indexNonEmpty
  · left; simp [ensure_local_vector_store, hidx]
  · cases hkb : fs.kbFile with
    | none => left; simp [ensure_local_vector_store, hidx, hkb]
    | some parsed =>
      by_cases hke : (parsed.getD []).isEmpty
      · left; simp [ensure_local_vector_store, hidx, hkb, hke]
      · by_cases hde : (kbDocuments (parsed.getD [])).isEmpty
        · left; simp [ensure_local_vector_store, hidx, hkb, hke, hde]
        · by_cases hce : (split_documents (kbDocuments (parsed.getD []))).isEmpty
          · left; simp [ensure_local_vector_store, hidx, hkb, hke, hde, hce]
          · right; simp [ensure_local_vector_store, hidx, hkb, hke, hde, hce]

/-- C6: if the index directory already exists non-empty, the build is
skipped entirely with the state unchanged; if the knowledge-base file is
absent, the build returns a skip without creating an index; and a second
invocation right after any first one never builds and never changes the
state. -/
theorem claim_C6 (split_documents : List Doc → List Doc) (fs : BuildFS) :
    (fs.indexNonEmpty = true →
      ensure_local_vector_store split_documents fs = (fs, .skippedExistingIndex)) ∧
      (fs.kbFile = none →
        (ensure_local_vector_store split_documents fs).1 = fs ∧
          (ensure_local_vector_store split_documents fs).2 ≠ .built) ∧
      ((ensure_local_vector_store split_documents
          (ensure_local_vector_store split_documents fs).1).1 =
        (ensure_local_vector_store split_documents fs).1 ∧
        (ensure_local_vector_store split_documents
          (ensure_local_vector_store split_documents fs).1).2 ≠ .built) := by
  refine ⟨?_, ?_, ?_⟩
  · intro hidx
    simp [ensure_local_vector_store, hidx]
  · intro hkb
    by_cases hidx : fs.indexNonEmpty
    · simp [ensure_local_vector_store, hidx]
    · simp [ensure_local_vector_store, hidx, hkb]
  · rcases ensure_cases split_documents fs with ⟨h1, h2⟩ | ⟨h1, _⟩
    · rw [h1]; exact ⟨h1, h2⟩
    · rw [h1]
      constructor
      · simp [ensure_local_vector_store]
      · simp [ensure_local_vector_store]

theorem claim_C6_witness :
    ensure_local_vector_store (fun l => l) ⟨true, none⟩ =
      (⟨true, none⟩, .skippedExistingIndex) ∧
      (ensure_local_vector_store (fun l => l) ⟨false, none⟩).1 = ⟨false, none⟩ :=
  ⟨(claim_C6 (fun l => l) ⟨true, none⟩).1 rfl,
    ((claim_C6 (fun l => l) ⟨false, none⟩).2.1 rfl).1⟩

/-- C7: if the loaded knowledge base is empty, filtering leaves zero
documents, or chunking yields zero chunks, the build aborts with the state
unchanged — no write to the index path, no partial index. -/
theorem claim_C7 (split_documents : List Doc → List Doc) (fs : BuildFS)
    (parsed : Option (List KBItem)) (hkb : fs.kbFile = some parsed)
    (hzero : parsed.getD [] = [] ∨ kbDocuments (parsed.getD []) = [] ∨
      split_documents (kbDocuments (parsed.getD [])) = []) :
    (ensure_local_vector_store split_documents fs).1 = fs ∧
      (ensure_local_vector_store split_documents fs).2 ≠ .built := by
  by_cases hidx : fs.indexNonEmpty
  · simp [ensure_local_vector_store, hidx]
  · rcases hzero with h | h | h
    · simp [ensure_local_vector_store, hidx, hkb, h]
    · by_cases hke : (parsed.getD []).isEmpty
      · simp [ensure_local_vector_store, hidx, hkb, hke]
      · simp [ensure_local_vector_store, hidx, hkb, hke, h]
    · by_cases hke : (parsed.getD []).isEmpty
      · simp [ensure_local_vector_store, hidx, hkb, hke]
      · by_cases hde : (kbDocuments (parsed.getD [])).isEmpty
        · simp [ensure_local_vector_store, hidx, hkb, hke, hde]
        · simp [ensure_local_vector_store, hidx, hkb, hke, hde, h]

theorem claim_C7_witness :
    (ensure_local_vector_store (fun l => l)
        ⟨false, some (some [{ content := some "", url := some "u" }])⟩).1 =
      ⟨false, some (some [{ content := some "", url := some "u" }])⟩ ∧
      (ensure_local_vector_store (fun l => l)
        ⟨false, some (some [{ content := some "", url := some "u" }])⟩).2 ≠ .built :=
  claim_C7 _ _ _ rfl (Or.inr (Or.inl (by decide)))

/-- `findSome?` is `find?` on definedness followed by lookup. -/
theorem findSome?_eq {α β : Type} (f : α → Option β) (l : List α) :
    l.findSome? f = (l.find? (fun a => (f a).isSome)).bind f := by
  induction l with
  | nil => rfl
  | cons a l ih =>
    cases hfa : f a with
    | some b => simp [List.findSome?_cons, List.find?_cons, hfa]
    | none => simp [List.findSome?_cons, List.find?_cons, hfa, ih]

/-- C8, counterexample to the claim as stated: in
`"A\nSource: X\nB\nSources: Y"` the first occurrence of any marker is the
`"\nSource:"` line at index 1, but the code tries `"\nSources:"` first and
cuts at its occurrence (index 13), keeping the earlier `Source:` line. -/
theorem claim_C8_counterexample :
    strip_sources_from_answer "A\nSource: X\nB\nSources: Y" = "A\nSource: X\nB" ∧
      claimStripC8 "A\nSource: X\nB\nSources: Y" = "A" := by
  exact ⟨by decide, by decide⟩

/-- C8 (amended): the post-processing step walks the fixed marker list in
priority order and cuts at the first occurrence of the first marker that
occurs anywhere in the answer (markers are newline-prefixed, so matches
are anchored at line starts and a marker on the very first line is not
stripped), trimming trailing whitespace; when no marker occurs — in
particular when `source` appears only mid-sentence — the answer is
returned unchanged. -/
theorem claim_C8 (s : String) :
    strip_sources_from_answer s = claimStripC8Amended s ∧
      ((∀ m ∈ sourceMarkers, findSubIdx (lowerChars m) (lowerChars s) = none) →
        strip_sources_from_answer s = s) := by
  constructor
  · unfold strip_sources_from_answer claimStripC8Amended
    by_cases hs : s = ""
    · simp [hs]
    · rw [if_neg hs, if_neg hs, findSome?_eq]
      cases hf : sourceMarkers.find?
          (fun m => (findSubIdx (lowerChars m) (lowerChars s)).isSome) with
      | none => rfl
      | some m => rfl
  · intro hnone
    unfold strip_sources_from_answer
    by_cases hs : s = ""
    · simp [hs]
    · rw [if_neg hs, List.findSome?_eq_none_iff.mpr hnone]

theorem claim_C8_witness :
    strip_sources_from_answer "We recommend open source: tools" =
        claimStripC8Amended "We recommend open source: tools" ∧
      strip_sources_from_answer "We recommend open source: tools" =
        "We recommend open source: tools" :=
  ⟨(claim_C8 "We recommend open source: tools").1,
    (claim_C8 "We recommend open source: tools").2 (by decide)⟩

/-- C9, counterexample to the claim as stated: a knowledge-base record
whose content is whitespace-only is truthy in python, passes the
`item.get('content')` filter in both build paths, and reaches the Chunker
as a document. -/
theorem claim_C9_counterexample :
    kbDocuments [{ content := some "   ", url := some "u" }] =
        [{ page_content := "   ", source := some "u" }] ∧
      create_documents_from_data [{ content := some "   ", url := some "u" }] =
        .ok [{ page_content := "   ", source := some "u" }] ∧
      "   ".data.all pyWhitespace = true := by
  exact ⟨by decide, rfl, by decide⟩

/-- C9 (amended): records whose content is empty or missing are excluded
before chunking — they produce zero documents, and every document handed
to the Chunker has non-empty content — but whitespace-only content is
truthy and is not excluded. -/
theorem claim_C9 (items : List KBItem) :
    kbDocuments (items.filter (fun it => it.content.getD "" == "")) = [] ∧
      (kbDocuments items).all (fun d => d.page_content != "") = true ∧
      create_documents_from_data (items.filter (fun it => it.content.getD "" == "")) =
        .ok [] := by
  have hff : (items.filter (fun it => it.content.getD "" == "")).filter
      (fun it => it.content.getD "" != "") = [] := by
    rw [List.filter_filter]
    refine List.filter_eq_nil_iff.mpr ?_
    intro a _
    by_cases hc : a.content.getD "" = "" <;> simp [hc]
  refine ⟨?_, ?_, ?_⟩
  · rw [kbDocuments]
    rw [show (fun it => it.content.getD "" != "") =
      (fun (it : KBItem) => it.content.getD "" != "") from rfl]
    rw [hff]
    rfl
  · rw [kbDocuments, List.all_eq_true]
    intro d hd
    obtain ⟨it, hit, rfl⟩ := List.mem_map.mp hd
    have := (List.mem_filter.mp hit).2
    simpa using this
  · rw [create_documents_from_data]
    rw [show (List.filter (fun it => it.content.getD "" != "")
        (List.filter (fun it => it.content.getD "" == "") items)) = [] from hff]
    rfl
